import Mathlib

/-!
# Verification of the RAG support-assistant core

Shallow embedding of the retrieval-augmented support assistant
(`src/rag/llm_client.py`, `src/rag/vector_store.py`, `src/rag/retriever.py`,
`src/rag/document_processor.py`, `src/rag/knowledge_assistant.py`,
`src/models/schemas.py`), together with proofs about its retry policy,
fallback handling, vector-store invariants, chunking and heading-split
algorithms.

Modelling conventions:
* External collaborators (the OpenAI chat endpoint, the sentence-transformers
  embedder, the FAISS index internals) are parameters of the embedded
  functions; the Python code's observations of them are modelled faithfully.
* Python floats that only ever get compared (similarity scores, thresholds)
  are modelled as rationals `ℚ`.
* A Python function that can raise is modelled with `Except`/`Option`;
  `try/except` blocks are modelled by matching on those results.
* Python strings are modelled as `String`/`List Char`; the ASCII whitespace
  set stands for Python's whitespace class.

The file is organised as: all definitions (the embedding), then all
theorems.
-/

namespace Spec2Proof

/-! ## LLMClient._call_openai_with_backoff (src/rag/llm_client.py:197-225)

The external chat-completions endpoint is modelled as a function from the
attempt number to that attempt's outcome: the call either returns a value,
raises `openai.RateLimitError`, or raises some other exception. -/

/-- Outcome of one attempt of `self.client.chat.completions.create(**kwargs)`. -/
inductive AttemptOutcome (α : Type) where
  | success (val : α)
  | rateLimit
  | otherError
deriving DecidableEq

/-- How `_call_openai_with_backoff` finishes: returns a value, re-raises the
final `RateLimitError`, re-raises a non-rate-limit exception, or falls off the
end of the `for` loop returning Python `None` (unreachable for 5 attempts). -/
inductive BackoffResult (α : Type) where
  | ok (val : α)
  | raisedRateLimit
  | raisedOther
  | exhausted
deriving DecidableEq

/-- Observable trace of `_call_openai_with_backoff`: how many times the
endpoint was called, the `time.sleep` durations in order, and the outcome. -/
structure BackoffTrace (α : Type) where
  calls : Nat
  waits : List Nat
  result : BackoffResult α
deriving DecidableEq

/-- The `for attempt in range(max_retries)` loop of
`_call_openai_with_backoff`, iterating over the remaining attempt indices.
`if attempt == max_retries - 1: raise e` is the case where the current index
is the last one, i.e. no indices remain after it. On `RateLimitError` (not
the last attempt) it sleeps `base_delay * (2 ** attempt)`; any other
exception is re-raised at once. -/
def backoffRun {α : Type} (service : Nat → AttemptOutcome α) (baseDelay : Nat) :
    List Nat → Nat → List Nat → BackoffTrace α
  | [], calls, waits => ⟨calls, waits, .exhausted⟩
  | a :: rest, calls, waits =>
    match service a with
    | .success v => ⟨calls + 1, waits, .ok v⟩
    | .otherError => ⟨calls + 1, waits, .raisedOther⟩
    | .rateLimit =>
      match rest with
      | [] => ⟨calls + 1, waits, .raisedRateLimit⟩
      | b :: rest2 =>
        backoffRun service baseDelay (b :: rest2) (calls + 1)
          (waits ++ [baseDelay * 2 ^ a])

/-- `LLMClient._call_openai_with_backoff`: `max_retries = 5`, `base_delay = 1`. -/
def callOpenaiWithBackoff {α : Type} (service : Nat → AttemptOutcome α) :
    BackoffTrace α :=
  backoffRun service 1 (List.range 5) 0 []

/-! ## JSON values and pydantic schemas (src/models/schemas.py)

`json.loads` produces a JSON value; a Python `dict` built from a JSON object
keeps the *last* binding of a duplicated key. -/

/-- A JSON value, as produced by `json.loads`. -/
inductive Json where
  | jNull
  | jBool (b : Bool)
  | jNum (n : Int)
  | jStr (s : String)
  | jArr (elems : List Json)
  | jObj (fields : List (String × Json))

/-- Key lookup in a JSON object viewed as a Python `dict`: the last
occurrence of a duplicated key wins. -/
def jsonLookup (fields : List (String × Json)) (key : String) : Option Json :=
  (fields.reverse.find? (fun kv => kv.1 == key)).map (·.2)

/-- `TicketResponse` (src/models/schemas.py:12-16): three required fields,
`action_required` is a plain `str` — the schema imposes no enum on it. -/
structure TicketResponse where
  answer : String
  references : List String
  action_required : String
deriving DecidableEq, Repr

/-- A JSON array accepted by pydantic for a `List[str]` field: every element
must be a string. -/
def asStringList : List Json → Option (List String)
  | [] => some []
  | .jStr s :: rest => (asStringList rest).map (s :: ·)
  | _ :: _ => none

/-- `TicketResponse(**response_data)`: succeeds only when the parsed value is
an object carrying a string `answer`, a list-of-strings `references` and a
string `action_required`; on anything else pydantic raises a validation error
(and `**` applied to a non-dict raises a `TypeError`), modelled as `none`. -/
def ticketResponseOfJson : Json → Option TicketResponse
  | .jObj fields =>
    match jsonLookup fields "answer", jsonLookup fields "references",
        jsonLookup fields "action_required" with
    | some (.jStr a), some (.jArr rs), some (.jStr act) =>
      match asStringList rs with
      | some refs => some ⟨a, refs, act⟩
      | none => none
    | _, _, _ => none
  | _ => none

/-- The closed set of `action_required` values listed in the system prompt
(src/rag/llm_client.py:115-122). -/
def allowedActions : List String :=
  ["escalate_to_technical_team", "escalate_to_abuse_team",
   "escalate_to_billing_team", "escalate_to_management",
   "escalate_to_legal_team", "contact_customer_directly",
   "no_action_required"]

/-! ## LLMClient.generate_response (src/rag/llm_client.py:35-93)

The raw response body is abstracted at the `json.loads` level: each
successful API call carries `none` when the body does not parse as JSON
(`json.JSONDecodeError`) or `some j` when it parses to the value `j`. -/

/-- Fallback of the `except json.JSONDecodeError` handler
(src/rag/llm_client.py:69-75); `references or []` equals `references` for any
list value. -/
def fallbackParseError (references : List String) : TicketResponse :=
  ⟨"I apologize, but I encountered an error processing your request. Please contact our support team directly for assistance.",
   references, "escalate_to_technical_team"⟩

/-- Fallback of the `except openai.RateLimitError` handler
(src/rag/llm_client.py:77-84). -/
def fallbackRateLimit (references : List String) : TicketResponse :=
  ⟨"I'm currently experiencing high demand. Please try again in a few minutes or contact our support team for immediate assistance.",
   references, "escalate_to_technical_team"⟩

/-- Fallback of the generic `except Exception` handler
(src/rag/llm_client.py:86-93): note `references=[]`. -/
def fallbackGeneral : TicketResponse :=
  ⟨"I'm experiencing technical difficulties. Please try again or contact our support team for immediate assistance.",
   [], "escalate_to_technical_team"⟩

/-- `LLMClient.generate_response`. `ticket_text` and `context` feed only the
prompt sent to the service, whose behaviour is the `service` parameter.
The mapping of the Python control flow:
* backoff returns a body that fails `json.loads` → `except json.JSONDecodeError`;
* body parses but `TicketResponse(**data)` raises → `except Exception`;
* backoff re-raises the final `RateLimitError` → `except openai.RateLimitError`;
* backoff re-raises any other exception → `except Exception`;
* backoff falls off its loop returning `None` → `None.choices` raises
  `AttributeError` → `except Exception`. -/
def generate_response (ticket_text context : String) (references : List String)
    (service : Nat → AttemptOutcome (Option Json)) : TicketResponse :=
  match (callOpenaiWithBackoff service).result with
  | .ok none => fallbackParseError references
  | .ok (some j) =>
    match ticketResponseOfJson j with
    | some r => r
    | none => fallbackGeneral
  | .raisedRateLimit => fallbackRateLimit references
  | .raisedOther => fallbackGeneral
  | .exhausted => fallbackGeneral

/-- A service response that parses and carries all three required fields with
the right types, but whose `action_required` lies outside the closed
seven-value enum. -/
def bogusActionJson : Json :=
  .jObj [("answer", .jStr "hi"), ("references", .jArr []),
         ("action_required", .jStr "bogus_action")]

/-! ## FAISSVectorStore (src/rag/vector_store.py)

The FAISS `IndexFlatIP` object is external; the Python code observes it only
through `ntotal`, `add` (which grows `ntotal` by the number of embedding
rows) and `search` (whose raw `(score, index)` output is a parameter).
Scores are modelled as `ℚ`. -/

/-- A metadata value of a `DocumentChunk` (string or int entries are used by
`DocumentProcessor._process_file`). -/
inductive MetaValue where
  | s (v : String)
  | n (v : Nat)
deriving DecidableEq, Repr

/-- `DocumentChunk` (src/models/schemas.py:18-22). -/
structure DocumentChunk where
  content : String
  source : String
  metadata : Option (List (String × MetaValue)) := none
deriving DecidableEq, Repr

/-- The mutable state of a `FAISSVectorStore`: the FAISS index (observed via
its `ntotal`) and the parallel `documents` metadata list. -/
structure VectorStoreState where
  ntotal : Nat
  documents : List DocumentChunk
deriving DecidableEq, Repr

/-- `FAISSVectorStore.add_documents` (src/rag/vector_store.py:35-57).
`encode` models `EmbeddingGenerator.encode_documents` row-wise (the
sentence-transformers batch encoder returns one row per input text) and
`normalize` models the row-wise effect of `faiss.normalize_L2`;
`self.index.add(embeddings)` grows `ntotal` by the number of rows. -/
def add_documents (encode : String → List ℚ) (normalize : List ℚ → List ℚ)
    (st : VectorStoreState) (docs : List DocumentChunk) : VectorStoreState :=
  if docs.isEmpty then st
  else
    let texts := docs.map (·.content)
    let embeddings := texts.map encode
    let normalized := embeddings.map normalize
    { ntotal := st.ntotal + normalized.length,
      documents := st.documents ++ docs }

/-- Python list indexing `l[i]` with an `int` index: nonnegative indices from
the front, negative indices from the back, out-of-range raises (`none`). -/
def pyGetElem {α : Type} (l : List α) (i : Int) : Option α :=
  if 0 ≤ i then l.get? i.toNat
  else if 0 ≤ (l.length : Int) + i then l.get? ((l.length : Int) + i).toNat
  else none

/-- The result-filtering loop of `FAISSVectorStore.search`
(src/rag/vector_store.py:84-89): keep `(documents[idx], score)` for each raw
`(score, idx)` with `score >= threshold and idx < len(documents)`; an
out-of-range `documents[idx]` raises `IndexError` (modelled `.error ()`). -/
def searchFilter (documents : List DocumentChunk) (threshold : ℚ) :
    List (ℚ × Int) → Except Unit (List (DocumentChunk × ℚ))
  | [] => .ok []
  | (score, idx) :: rest =>
    if threshold ≤ score ∧ idx < (documents.length : Int) then
      match pyGetElem documents idx with
      | some doc => (searchFilter documents threshold rest).map
          (fun rs => (doc, score) :: rs)
      | none => .error ()
    else searchFilter documents threshold rest

/-- `FAISSVectorStore.search` (src/rag/vector_store.py:59-89). `faissOut n`
is the zipped `(scores[0], indices[0])` row returned by the external
`self.index.search(query_embedding, n)` for the (fixed) embedded query;
the code requests `n = min(k, self.index.ntotal)` results. -/
def FAISSVectorStore.search (st : VectorStoreState)
    (faissOut : Int → List (ℚ × Int)) (k : Int) (threshold : ℚ) :
    Except Unit (List (DocumentChunk × ℚ)) :=
  if st.ntotal = 0 then .ok []
  else searchFilter st.documents threshold (faissOut (min k (st.ntotal : Int)))

/-- The pair of artifacts read by `load_index`: for each of
`{path}.faiss` / `{path}.docs`, `none` means the file does not exist,
`some none` that it exists but deserialization (`faiss.read_index` /
`pickle.load`) raises, and `some (some v)` that it deserializes to `v`. -/
structure PersistedState where
  faissFile : Option (Option Nat)
  docsFile : Option (Option (List DocumentChunk))
deriving DecidableEq

/-- `FAISSVectorStore.save_index` (src/rag/vector_store.py:91-106): writes
the FAISS index and the pickled `documents` list as the two artifacts. -/
def save_index (st : VectorStoreState) : PersistedState :=
  ⟨some (some st.ntotal), some (some st.documents)⟩

/-- `FAISSVectorStore.load_index` (src/rag/vector_store.py:108-138):
if `{path}.faiss` is missing, return `False`; otherwise assign
`self.index = faiss.read_index(...)` (an exception here is caught, state
unchanged). Then if `{path}.docs` is missing, return `False` — with the
index already replaced; otherwise assign `self.documents = pickle.load(f)`
(an exception here is caught, documents unchanged but index already
replaced). Returns the new state and the `bool` result. -/
def load_index (st : VectorStoreState) (fs : PersistedState) :
    VectorStoreState × Bool :=
  match fs.faissFile with
  | none => (st, false)
  | some none => (st, false)
  | some (some n) =>
    let st1 : VectorStoreState := { st with ntotal := n }
    match fs.docsFile with
    | none => (st1, false)
    | some none => (st1, false)
    | some (some ds) => ({ st1 with documents := ds }, true)

/-! ## DocumentRetriever (src/rag/retriever.py)

Optional arguments that were not supplied are `none`; the code resolves them
with Python's truthiness `or`:
`max_chunks = max_chunks or config.MAX_RELEVANT_CHUNKS` and
`threshold = threshold or config.SIMILARITY_THRESHOLD`
(src/rag/retriever.py:65-66), with configured defaults `5` and `0.7`
(src/utils/config.py:30-31). -/

/-- Python `x or default` for an optional `int` argument: `None` and `0` are
falsy and replaced by the default; every other value (negative included) is
kept. -/
def pyOrInt (x : Option Int) (d : Int) : Int :=
  match x with
  | none => d
  | some v => if v = 0 then d else v

/-- Python `x or default` for an optional `float` argument: `None` and `0.0`
are falsy and replaced by the default. -/
def pyOrRat (x : Option ℚ) (d : ℚ) : ℚ :=
  match x with
  | none => d
  | some v => if v = 0 then d else v

/-- Stable insertion into a descending-by-score list: the new element goes
before the first entry whose score is `≤` its own, so earlier-listed elements
precede later ones on equal scores. -/
def insertDesc (x : DocumentChunk × ℚ) :
    List (DocumentChunk × ℚ) → List (DocumentChunk × ℚ)
  | [] => [x]
  | y :: ys => if y.2 ≤ x.2 then x :: y :: ys else y :: insertDesc x ys

/-- `results.sort(key=lambda x: x[1], reverse=True)`
(src/rag/retriever.py:72): Python's sort is stable, and a stable sort under a
total preorder on keys is extensionally unique, so it is modelled by a stable
insertion sort descending on the score. -/
def sortByScoreDesc : List (DocumentChunk × ℚ) → List (DocumentChunk × ℚ)
  | [] => []
  | x :: xs => insertDesc x (sortByScoreDesc xs)

/-- `DocumentRetriever.retrieve_relevant_context` (src/rag/retriever.py:53-74).
The store state and raw FAISS output stand for the fixed built index and the
fixed query's search row. -/
def retrieve_relevant_context (st : VectorStoreState)
    (faissOut : Int → List (ℚ × Int)) (max_chunks : Option Int)
    (threshold : Option ℚ) : Except Unit (List (DocumentChunk × ℚ)) :=
  let k := pyOrInt max_chunks 5
  let t := pyOrRat threshold (7 / 10)
  (FAISSVectorStore.search st faissOut k t).map sortByScoreDesc

/-- The formatting part of `DocumentRetriever.get_context_string`
(src/rag/retriever.py:86-95): the sentinel on an empty result, otherwise the
`"\n"`-join of `"Source {i}: {doc.source}\n{doc.content}\n"` with 1-based
numbering. -/
def formatContext (relevant_docs : List (DocumentChunk × ℚ)) : String :=
  if relevant_docs.isEmpty then "No relevant documentation found."
  else
    String.intercalate "\n"
      ((relevant_docs.enumFrom 1).map
        (fun p => "Source " ++ toString p.1 ++ ": " ++ p.2.1.source ++ "\n" ++
          p.2.1.content ++ "\n"))

/-- `DocumentRetriever.get_context_string` (src/rag/retriever.py:76-95):
retrieves with the supplied `max_chunks` and the default threshold, then
formats. -/
def get_context_string (st : VectorStoreState)
    (faissOut : Int → List (ℚ × Int)) (max_chunks : Option Int) :
    Except Unit String :=
  (retrieve_relevant_context st faissOut max_chunks none).map formatContext

/-- First-seen-order deduplication. -/
def firstSeenDedup : List String → List String :=
  go []
where
  /-- Keep each string's first occurrence, tracking the already-seen set. -/
  go (seen : List String) : List String → List String
    | [] => []
    | x :: xs => if x ∈ seen then go seen xs else x :: go (x :: seen) xs

/-- Modelled from the spec: `DocumentRetriever.get_references` is called by
`KnowledgeAssistant.resolve_ticket` (src/rag/knowledge_assistant.py:39) and
exercised by the test suite, but no definition of it appears in the source;
per the spec it "returns the distinct `source` identifiers from the
retrieved set, preserving first-seen (highest-rank) order, with no
duplicates". -/
def get_references (st : VectorStoreState)
    (faissOut : Int → List (ℚ × Int)) : Except Unit (List String) :=
  (retrieve_relevant_context st faissOut none none).map
    (fun docs => firstSeenDedup (docs.map (·.1.source)))

/-- `KnowledgeAssistant.resolve_ticket` (src/rag/knowledge_assistant.py:26-48):
retrieve the context string and the reference list, then generate. An
exception raised by retrieval propagates to the orchestration layer; the
generation step is total. -/
def resolve_ticket (st : VectorStoreState) (faissOut : Int → List (ℚ × Int))
    (service : Nat → AttemptOutcome (Option Json)) (ticket_text : String) :
    Except Unit TicketResponse := do
  let context ← get_context_string st faissOut none
  let references ← get_references st faissOut
  pure (generate_response ticket_text context references service)

/-! ## DocumentProcessor (src/rag/document_processor.py)

Text is handled at the `List Char` level so that the line splitting, the
heading regex and Python's slicing semantics can be modelled exactly. -/

/-- Python's whitespace class (`\s`, `str.strip`), ASCII range. -/
def isPySpace (c : Char) : Bool :=
  c == ' ' || c == '\t' || c == '\n' || c == '\r' || c == '\x0b' || c == '\x0c'

/-- Python `str.strip()`: drop whitespace from both ends. -/
def pyStripL (l : List Char) : List Char :=
  ((l.dropWhile isPySpace).reverse.dropWhile isPySpace).reverse

/-- Python `content.split('\n')`. -/
def pySplitLines : List Char → List (List Char)
  | [] => [[]]
  | c :: cs =>
    if c = '\n' then [] :: pySplitLines cs
    else
      match pySplitLines cs with
      | [] => [[c]]
      | l :: ls => (c :: l) :: ls

/-- `re.match(r'^(#{1,6})\s+(.+)$', line)` (src/rag/document_processor.py:80),
returning `group(2)` on a match. The line matches exactly when it starts
with 1–6 `#` characters (not followed by a seventh) and the remainder starts
with a whitespace character and has length at least 2 (`\s+` needs one
character and `(.+)` another). `group(2)`: `\s+` is greedy, so it swallows
the maximal whitespace run unless the remainder is whitespace only, in which
case backtracking leaves exactly the last character for `(.+)`. -/
def headingMatch (line : List Char) : Option (List Char) :=
  let hashes := line.takeWhile (fun c => c == '#')
  let rest := line.dropWhile (fun c => c == '#')
  if 1 ≤ hashes.length ∧ hashes.length ≤ 6 then
    match rest with
    | [] => none
    | c :: _ =>
      if isPySpace c then
        let tl := rest.dropWhile isPySpace
        if tl.isEmpty then
          if 2 ≤ rest.length then
            match rest.getLast? with
            | some last => some [last]
            | none => none
          else none
        else some tl
      else none
  else none

/-- The line loop of `DocumentProcessor._split_by_headings`
(src/rag/document_processor.py:87-102): accumulate `line + "\n"` into the
current section; on a heading line, flush the current section if its strip
is non-empty and start a new one titled by `group(2)`; at the end, flush the
final section under the same condition. -/
def splitGo : List (List Char) → List Char → List Char →
    List (List Char × List Char)
  | [], current_heading, current_sec =>
    if (pyStripL current_sec).isEmpty then []
    else [(current_heading, current_sec)]
  | line :: rest, current_heading, current_sec =>
    match headingMatch line with
    | some title =>
      if (pyStripL current_sec).isEmpty then splitGo rest title []
      else (current_heading, current_sec) :: splitGo rest title []
    | none => splitGo rest current_heading (current_sec ++ line ++ ['\n'])

/-- `DocumentProcessor._split_by_headings` (src/rag/document_processor.py:70-104):
the first unheaded block is titled `"Introduction"`. -/
def splitByHeadings (content : List Char) : List (List Char × List Char) :=
  splitGo (pySplitLines content) "Introduction".toList []

/-- The chunk-construction part of `DocumentProcessor._process_file`
(src/rag/document_processor.py:53-68): keep each section whose stripped
content is non-empty, as a `DocumentChunk` with the stripped content, source
`"{file_name}: {section_title}"` and the file/section/length metadata. -/
def processFileChunks (fileName : String) (content : List Char) :
    List DocumentChunk :=
  (splitByHeadings content).filterMap fun sec =>
    let stripped := pyStripL sec.2
    if stripped.isEmpty then none
    else some
      { content := ⟨stripped⟩
        source := fileName ++ ": " ++ ⟨sec.1⟩
        metadata := some [("file", .s fileName), ("section", .s ⟨sec.1⟩),
                          ("length", .n stripped.length)] }

/-- The text a section accumulates from a list of member lines: each line
followed by a newline. -/
def sectionContent (lines : List (List Char)) : List Char :=
  (lines.map (fun l => l ++ ['\n'])).flatten

/-- Specification-side heading split, structured as the spec phrases it: each
heading line starts a section containing exactly the non-heading lines up to
the next heading. -/
def specSplitAux : List (List Char) → List (List Char × List Char)
  | [] => []
  | line :: rest =>
    match headingMatch line with
    | some title =>
      (title, sectionContent (rest.takeWhile (fun l => (headingMatch l).isNone)))
        :: specSplitAux (rest.dropWhile (fun l => (headingMatch l).isNone))
    | none => specSplitAux rest
termination_by l => l.length
decreasing_by
  · simp only [List.length_cons]
    exact Nat.lt_succ_of_le (List.dropWhile_suffix _).length_le
  · simp

/-- Specification-side `split`: the first unheaded block is titled
`"Introduction"`, then one section per heading line with the lines between it
and the next heading; sections whose content is only whitespace are
discarded. -/
def specSplit (content : List Char) : List (List Char × List Char) :=
  let lines := pySplitLines content
  let intro := lines.takeWhile (fun l => (headingMatch l).isNone)
  let rest := lines.dropWhile (fun l => (headingMatch l).isNone)
  (("Introduction".toList, sectionContent intro) :: specSplitAux rest).filter
    (fun s => !(pyStripL s.2).isEmpty)

/-! ## DocumentProcessor.chunk_text (src/rag/document_processor.py:106-143)

The `while` loop is embedded with explicit fuel; running out of fuel is the
`outOfFuel` result, so non-termination of the Python loop corresponds to
`outOfFuel` for every fuel value. `start` and `end` are Python `int`s and can
go negative, so they are modelled as `Int` with Python's indexing and slicing
semantics. -/

/-- `text[i] in '.!?\n'`. -/
def isSentenceEnd (c : Char) : Bool :=
  c == '.' || c == '!' || c == '?' || c == '\n'

/-- The backward scan `for i in range(end, max(start + max_length - 100, start), -1)`
(src/rag/document_processor.py:129-132), taking the number of remaining
range elements and the current index: stop at the first sentence-ending
character, returning `i + 1`; an out-of-range `text[i]` raises `IndexError`. -/
def scanBack (text : List Char) : Nat → Int → Except Unit (Option Int)
  | 0, _ => .ok none
  | steps + 1, i =>
    match pyGetElem text i with
    | none => .error ()
    | some c =>
      if isSentenceEnd c then .ok (some (i + 1))
      else scanBack text steps (i - 1)

/-- One bound of a Python slice `text[start:end]`: negative values count from
the back, then the result is clamped to `[0, len]`. -/
def pySliceIdx (len : Nat) (v : Int) : Nat :=
  if v < 0 then ((len : Int) + v).toNat else min v.toNat len

/-- Python slice `text[start:end]` (step 1). -/
def pySlice (text : List Char) (start stop : Int) : List Char :=
  (text.take (pySliceIdx text.length stop)).drop (pySliceIdx text.length start)

/-- Result of running the `chunk_text` loop with bounded fuel. -/
inductive ChunkTextResult where
  | outOfFuel
  | indexError
  | ok (chunks : List (List Char))
deriving DecidableEq, Repr

/-- The cut-point computation of one `chunk_text` iteration
(src/rag/document_processor.py:124-132): `end = start + max_length`, and if
`end < len(text)`, scan backward through
`range(end, max(start + max_length - 100, start), -1)` for a sentence-ending
character, cutting just after it when found. -/
def computeEnd (text : List Char) (max_length : Int) (start : Int) :
    Except Unit Int :=
  let end0 := start + max_length
  if end0 < (text.length : Int) then
    (scanBack text (end0 - max (start + max_length - 100) start).toNat end0).map
      (fun r => r.getD end0)
  else .ok end0

/-- The `while start < len(text)` loop of `chunk_text`
(src/rag/document_processor.py:123-141): compute the cut point, append the
stripped slice `text[start:end]` if non-empty, advance
`start = end - overlap`, and stop once `start >= len(text)`. -/
def chunkLoop (text : List Char) (max_length overlap : Int) :
    Nat → Int → List (List Char) → ChunkTextResult
  | 0, _, _ => .outOfFuel
  | fuel + 1, start, chunks =>
    if start < (text.length : Int) then
      match computeEnd text max_length start with
      | .error _ => .indexError
      | .ok e =>
        let chunk := pyStripL (pySlice text start e)
        let chunks2 := if chunk.isEmpty then chunks else chunks ++ [chunk]
        if (text.length : Int) ≤ e - overlap then .ok chunks2
        else chunkLoop text max_length overlap fuel (e - overlap) chunks2
    else .ok chunks

/-- `DocumentProcessor.chunk_text` (src/rag/document_processor.py:106-143):
a text no longer than `max_length` is returned as the single chunk;
otherwise run the loop from `start = 0`. -/
def chunk_text (text : List Char) (max_length overlap : Int) (fuel : Nat) :
    ChunkTextResult :=
  if (text.length : Int) ≤ max_length then .ok [text]
  else chunkLoop text max_length overlap fuel 0 []

/-- A 20-character text with a single sentence-ending character at index 4:
`"aaaa.aaaaaaaaaaaaaaa"`. -/
def ex8Text : List Char :=
  ['a', 'a', 'a', 'a', '.', 'a', 'a', 'a', 'a', 'a',
   'a', 'a', 'a', 'a', 'a', 'a', 'a', 'a', 'a', 'a']

/-! # Theorems -/

/-! ## Claim C3 -/

/-- **C3.** If the generation service raises a rate-limit error on every
attempt, `_call_openai_with_backoff` makes exactly 5 call attempts with
exactly 4 intervening waits of durations `1, 2, 4, 8` (`base_delay * 2^attempt`)
and then re-raises the rate-limit failure to the outer handler; and if the
service raises any non-rate-limit exception at attempt `k` (after rate-limit
failures on the earlier attempts), the call aborts at once — `k + 1` calls,
no wait after the failing attempt — re-raising that exception. -/
theorem callOpenaiWithBackoff_retry_policy {α : Type}
    (service : Nat → AttemptOutcome α) :
    ((∀ i, i < 5 → service i = .rateLimit) →
      callOpenaiWithBackoff service = ⟨5, [1, 2, 4, 8], .raisedRateLimit⟩) ∧
    (∀ k, k < 5 → (∀ i, i < k → service i = .rateLimit) →
      service k = .otherError →
      callOpenaiWithBackoff service =
        ⟨k + 1, (List.range k).map (fun i => 1 * 2 ^ i), .raisedOther⟩) := by
  constructor
  · intro h
    have h0 := h 0 (by norm_num)
    have h1 := h 1 (by norm_num)
    have h2 := h 2 (by norm_num)
    have h3 := h 3 (by norm_num)
    have h4 := h 4 (by norm_num)
    show backoffRun service 1 (List.range 5) 0 [] = _
    have hr : List.range 5 = [0, 1, 2, 3, 4] := by decide
    rw [hr]
    simp [backoffRun, h0, h1, h2, h3, h4]
  · intro k hk hpre hk'
    interval_cases k
    · show backoffRun service 1 (List.range 5) 0 [] = _
      have hr : List.range 5 = [0, 1, 2, 3, 4] := by decide
      rw [hr]
      simp [backoffRun, hk']
    · have h0 := hpre 0 (by norm_num)
      show backoffRun service 1 (List.range 5) 0 [] = _
      have hr : List.range 5 = [0, 1, 2, 3, 4] := by decide
      rw [hr]
      simp [backoffRun, h0, hk']
      decide
    · have h0 := hpre 0 (by norm_num)
      have h1 := hpre 1 (by norm_num)
      show backoffRun service 1 (List.range 5) 0 [] = _
      have hr : List.range 5 = [0, 1, 2, 3, 4] := by decide
      rw [hr]
      simp [backoffRun, h0, h1, hk']
      decide
    · have h0 := hpre 0 (by norm_num)
      have h1 := hpre 1 (by norm_num)
      have h2 := hpre 2 (by norm_num)
      show backoffRun service 1 (List.range 5) 0 [] = _
      have hr : List.range 5 = [0, 1, 2, 3, 4] := by decide
      rw [hr]
      simp [backoffRun, h0, h1, h2, hk']
      decide
    · have h0 := hpre 0 (by norm_num)
      have h1 := hpre 1 (by norm_num)
      have h2 := hpre 2 (by norm_num)
      have h3 := hpre 3 (by norm_num)
      show backoffRun service 1 (List.range 5) 0 [] = _
      have hr : List.range 5 = [0, 1, 2, 3, 4] := by decide
      rw [hr]
      simp [backoffRun, h0, h1, h2, h3, hk']
      decide

/-- Witness for C3: a service that is rate-limited on every attempt yields the
5-call, `[1,2,4,8]`-wait trace. -/
theorem callOpenaiWithBackoff_retry_policy_witness :
    callOpenaiWithBackoff (fun _ => (AttemptOutcome.rateLimit : AttemptOutcome Unit)) =
      ⟨5, [1, 2, 4, 8], .raisedRateLimit⟩ :=
  (callOpenaiWithBackoff_retry_policy (fun _ => .rateLimit)).1 (fun _ _ => rfl)

/-! ## Claim C2 -/

/-- Case analysis of `generate_response`: either the service's body parsed and
validated and is returned as-is, or the result is one of the three fallbacks,
each of which carries `action_required = "escalate_to_technical_team"`. -/
theorem generate_response_cases (ticket_text context : String)
    (references : List String) (service : Nat → AttemptOutcome (Option Json)) :
    (∃ j tr, (callOpenaiWithBackoff service).result = .ok (some j) ∧
      ticketResponseOfJson j = some tr ∧
      generate_response ticket_text context references service = tr) ∨
    (generate_response ticket_text context references service).action_required =
      "escalate_to_technical_team" := by
  unfold generate_response
  rcases hres : (callOpenaiWithBackoff service).result with val | _ | _ | _
  · rcases val with _ | j
    · right; rfl
    · rcases hj : ticketResponseOfJson j with _ | tr
      · right; simp [hj, fallbackGeneral]
      · left; exact ⟨j, tr, rfl, hj, by simp [hj]⟩
  · right; rfl
  · right; rfl
  · right; rfl

/-- **C2.** `generate_response` is a total function (no failure of the
service, the JSON parse or the schema validation escapes to the caller), and
on every failure path — unparseable body, rate-limit exhaustion, any other
exception, schema-invalid parse — the returned `TicketResponse` carries the
safe default `action_required = "escalate_to_technical_team"`; the only other
possibility is a successfully parsed and validated service response. -/
theorem generate_response_never_raises (ticket_text context : String)
    (references : List String) (service : Nat → AttemptOutcome (Option Json)) :
    ((callOpenaiWithBackoff service).result = .raisedRateLimit ∨
     (callOpenaiWithBackoff service).result = .raisedOther ∨
     (callOpenaiWithBackoff service).result = .exhausted ∨
     (callOpenaiWithBackoff service).result = .ok none ∨
     (∃ j, (callOpenaiWithBackoff service).result = .ok (some j) ∧
       ticketResponseOfJson j = none) →
      (generate_response ticket_text context references service).action_required =
        "escalate_to_technical_team") ∧
    ((∃ j tr, (callOpenaiWithBackoff service).result = .ok (some j) ∧
      ticketResponseOfJson j = some tr ∧
      generate_response ticket_text context references service = tr) ∨
     (generate_response ticket_text context references service).action_required =
       "escalate_to_technical_team") := by
  refine ⟨?_, generate_response_cases ticket_text context references service⟩
  intro h
  unfold generate_response
  rcases h with h | h | h | h | ⟨j, hj, hnone⟩
  · rw [h]; rfl
  · rw [h]; rfl
  · rw [h]; rfl
  · rw [h]; rfl
  · rw [hj]; simp [hnone, fallbackGeneral]

/-- Witness for C2: a service whose single call raises a non-rate-limit
exception yields the escalate default. -/
theorem generate_response_never_raises_witness :
    (generate_response "t" "c" ["r"] (fun _ => .otherError)).action_required =
      "escalate_to_technical_team" :=
  (generate_response_never_raises "t" "c" ["r"] (fun _ => .otherError)).1
    (Or.inr (Or.inl rfl))

/-! ## Claim C4 -/

/-- **C4, counterexample.** The claim says an `action` value outside the
closed seven-value enum triggers the fallback answer with
`action = escalate_to_technical_team` and the supplied references. In fact
`TicketResponse` never validates `action_required`: the out-of-enum response
is returned unchanged — the action is `"bogus_action"`, not in the enum, and
the result is not the fallback. -/
theorem generate_response_no_enum_check :
    (generate_response "t" "c" ["r1"] (fun _ => .success (some bogusActionJson))).action_required
      = "bogus_action" ∧
    "bogus_action" ∉ allowedActions ∧
    generate_response "t" "c" ["r1"] (fun _ => .success (some bogusActionJson)) ≠
      fallbackParseError ["r1"] ∧
    (generate_response "t" "c" ["r1"] (fun _ => .success (some bogusActionJson))).references
      ≠ ["r1"] := by
  refine ⟨rfl, by decide, ?_, ?_⟩ <;> intro h <;> simp [generate_response,
    callOpenaiWithBackoff, backoffRun, List.range, List.range.loop,
    ticketResponseOfJson, bogusActionJson, jsonLookup, asStringList,
    fallbackParseError] at h

/-- **C4, amended.** When the raw response body fails to parse as JSON,
`generate_response` returns the fallback answer with
`action = escalate_to_technical_team` and the supplied references. When the
body parses but schema validation fails (a required field absent or
ill-typed), the generic handler returns the fallback with
`action = escalate_to_technical_team` and *empty* references, not the
supplied ones. When the body parses and all three fields are present with the
right types, the response is returned as-is — the `action` value is never
checked against the enum. -/
theorem generate_response_validation_behaviour (ticket_text context : String)
    (references : List String) (service : Nat → AttemptOutcome (Option Json)) :
    ((callOpenaiWithBackoff service).result = .ok none →
      generate_response ticket_text context references service =
        fallbackParseError references ∧
      (fallbackParseError references).references = references ∧
      (fallbackParseError references).action_required =
        "escalate_to_technical_team") ∧
    (∀ j, (callOpenaiWithBackoff service).result = .ok (some j) →
      ticketResponseOfJson j = none →
      generate_response ticket_text context references service = fallbackGeneral ∧
      fallbackGeneral.references = [] ∧
      fallbackGeneral.action_required = "escalate_to_technical_team") ∧
    (∀ j tr, (callOpenaiWithBackoff service).result = .ok (some j) →
      ticketResponseOfJson j = some tr →
      generate_response ticket_text context references service = tr) := by
  refine ⟨?_, ?_, ?_⟩
  · intro h
    refine ⟨?_, rfl, rfl⟩
    unfold generate_response
    rw [h]
  · intro j hj hnone
    refine ⟨?_, rfl, rfl⟩
    unfold generate_response
    rw [hj]
    simp [hnone]
  · intro j tr hj htr
    unfold generate_response
    rw [hj]
    simp [htr]

/-- Witness for the amended C4: a service whose body never parses yields the
parse-error fallback carrying the supplied reference list. -/
theorem generate_response_validation_behaviour_witness :
    generate_response "t" "c" ["r1"] (fun _ => .success none) =
      fallbackParseError ["r1"] :=
  ((generate_response_validation_behaviour "t" "c" ["r1"]
    (fun _ => .success none)).1 rfl).1

/-! ## Claim C6 -/

/-- **C6.** `load_index` never raises (it is a total function into
`state × bool`; every exception of the `try` block is caught), and it
returns `true` exactly when both halves of the persisted pair exist and
deserialize — equivalently, it returns `false` whenever either artifact is
missing and on any deserialization error. -/
theorem load_index_false_on_missing_or_corrupt (st : VectorStoreState)
    (fs : PersistedState) :
    (load_index st fs).2 = false ↔
      (fs.faissFile = none ∨ fs.faissFile = some none ∨
       fs.docsFile = none ∨ fs.docsFile = some none) := by
  rcases fs with ⟨_ | (_ | n), _ | (_ | ds)⟩ <;>
    simp [load_index]

/-! ## Claim C5 -/

/-- **C5, counterexample.** The size invariant is *not* preserved by every
`load_index` path: starting from an empty store (invariant holds, `0 = 0`),
loading from a path where the `.faiss` artifact exists (an index of size 1)
but the `.docs` artifact is missing replaces the index, reports `false`, and
leaves the store partially loaded with `ntotal = 1` against an empty
document list. -/
theorem load_index_partial_load_breaks_invariant :
    (⟨0, []⟩ : VectorStoreState).ntotal =
      (⟨0, []⟩ : VectorStoreState).documents.length ∧
    (load_index ⟨0, []⟩ ⟨some (some 1), none⟩).2 = false ∧
    (load_index ⟨0, []⟩ ⟨some (some 1), none⟩).1.ntotal ≠
      (load_index ⟨0, []⟩ ⟨some (some 1), none⟩).1.documents.length := by
  refine ⟨rfl, rfl, ?_⟩
  decide

/-- **C5, amended.** `add_documents` preserves the invariant
`ntotal = documents.length` (the embedder yields one row per text and
normalization is row-wise); `search` and `save_index` never modify the
state; a `load_index` that fails before the vector artifact is read (missing
or unreadable `.faiss` file) leaves the state unchanged; loading the pair
written by `save_index` succeeds and restores exactly the saved state, hence
the invariant. But — per the counterexample — a load that fails *after*
reading the vector artifact leaves the store partially loaded. -/
theorem vector_store_size_invariant (encode : String → List ℚ)
    (normalize : List ℚ → List ℚ) (st st' : VectorStoreState)
    (docs : List DocumentChunk)
    (hinv : st.ntotal = st.documents.length) :
    (add_documents encode normalize st docs).ntotal =
      (add_documents encode normalize st docs).documents.length ∧
    (∀ ds, load_index st ⟨none, ds⟩ = (st, false)) ∧
    (∀ ds, load_index st ⟨some none, ds⟩ = (st, false)) ∧
    load_index st' (save_index st) =
      ({ ntotal := st.ntotal, documents := st.documents }, true) ∧
    (load_index st' (save_index st)).1.ntotal =
      (load_index st' (save_index st)).1.documents.length := by
  refine ⟨?_, fun ds => rfl, fun ds => rfl, rfl, ?_⟩
  · unfold add_documents
    split
    · exact hinv
    · simp [hinv]
  · simp [load_index, save_index, hinv]

/-- Witness for the amended C5: adding two chunks to an invariant-satisfying
singleton store keeps `ntotal` equal to the metadata-list length, and a
save/load round trip restores the state. -/
theorem vector_store_size_invariant_witness :
    (add_documents (fun _ => [1]) id ⟨1, [⟨"a", "s", none⟩]⟩
        [⟨"b", "s", none⟩, ⟨"c", "s", none⟩]).ntotal =
      (add_documents (fun _ => [1]) id ⟨1, [⟨"a", "s", none⟩]⟩
        [⟨"b", "s", none⟩, ⟨"c", "s", none⟩]).documents.length ∧
    load_index ⟨0, []⟩ (save_index ⟨1, [⟨"a", "s", none⟩]⟩) =
      (⟨1, [⟨"a", "s", none⟩]⟩, true) := by
  have h := vector_store_size_invariant (fun _ => [(1 : ℚ)]) id
    ⟨1, [⟨"a", "s", none⟩]⟩ ⟨0, []⟩ [⟨"b", "s", none⟩, ⟨"c", "s", none⟩] rfl
  exact ⟨h.1, h.2.2.2.1⟩

/-! ## Claim C7 -/

/-- Raising the threshold of the result-filtering loop filters the
lower-threshold result list: whatever the raw FAISS row is, if the loop
succeeds at threshold `t₁ ≤ t₂` then at `t₂` it returns exactly the `t₁`
results with the entries scoring below `t₂` discarded, and every `t₁` result
scores at least `t₁`. -/
theorem searchFilter_mono (docs : List DocumentChunk) (t₁ t₂ : ℚ)
    (h12 : t₁ ≤ t₂) (l : List (ℚ × Int)) :
    ∀ res, searchFilter docs t₁ l = .ok res →
      searchFilter docs t₂ l = .ok (res.filter (fun r => decide (t₂ ≤ r.2))) ∧
      ∀ r ∈ res, t₁ ≤ r.2 := by
  induction l with
  | nil =>
    intro res h
    simp only [searchFilter, Except.ok.injEq] at h
    subst h
    simp [searchFilter]
  | cons hd tl ih =>
    obtain ⟨score, idx⟩ := hd
    intro res h
    simp only [searchFilter] at h ⊢
    by_cases hc : t₁ ≤ score ∧ idx < (docs.length : Int)
    · rw [if_pos hc] at h
      rcases hg : pyGetElem docs idx with _ | doc
      · rw [hg] at h
        simp [Except.map] at h
      · rw [hg] at h
        rcases hrest : searchFilter docs t₁ tl with e | res'
        · rw [hrest] at h
          simp [Except.map] at h
        · rw [hrest] at h
          simp only [Except.map, Except.ok.injEq] at h
          subst h
          obtain ⟨ih1, ih2⟩ := ih res' hrest
          have hmem : ∀ r ∈ (doc, score) :: res', t₁ ≤ r.2 := by
            intro r hr
            rcases List.mem_cons.mp hr with rfl | hr
            · exact hc.1
            · exact ih2 r hr
          by_cases h2 : t₂ ≤ score
          · have hcond : t₂ ≤ score ∧ idx < (docs.length : Int) := ⟨h2, hc.2⟩
            rw [if_pos hcond]
            rw [show (match some doc with
              | some doc => Except.map (fun rs => (doc, score) :: rs)
                  (searchFilter docs t₂ tl)
              | none => Except.error ()) =
              Except.map (fun rs => (doc, score) :: rs)
                (searchFilter docs t₂ tl) from rfl]
            rw [ih1]
            exact ⟨by simp [Except.map, List.filter_cons, h2], hmem⟩
          · rw [if_neg (fun hcon => h2 hcon.1)]
            rw [ih1]
            exact ⟨by simp [h2], hmem⟩
    · rw [if_neg hc] at h
      obtain ⟨ih1, ih2⟩ := ih res h
      have hc2 : ¬(t₂ ≤ score ∧ idx < (docs.length : Int)) := by
        intro hcon
        exact hc ⟨le_trans h12 hcon.1, hcon.2⟩
      rw [if_neg hc2, ih1]
      exact ⟨rfl, ih2⟩

/-- **C7.** For a fixed query (hence fixed raw FAISS output), fixed store and
fixed `k`, `search` at a higher threshold `t₂ ≥ t₁` returns exactly the
`t₁` results with entries scoring below `t₂` discarded — in particular never
more results — and every returned result scores at least the supplied
threshold. -/
theorem search_threshold_monotone (st : VectorStoreState)
    (faissOut : Int → List (ℚ × Int)) (k : Int) (t₁ t₂ : ℚ) (h12 : t₁ ≤ t₂)
    (res₁ : List (DocumentChunk × ℚ))
    (h₁ : FAISSVectorStore.search st faissOut k t₁ = .ok res₁) :
    FAISSVectorStore.search st faissOut k t₂ =
      .ok (res₁.filter (fun r => decide (t₂ ≤ r.2))) ∧
    (res₁.filter (fun r => decide (t₂ ≤ r.2))).length ≤ res₁.length ∧
    (∀ r ∈ res₁, t₁ ≤ r.2) ∧
    (∀ r ∈ res₁.filter (fun r => decide (t₂ ≤ r.2)), t₂ ≤ r.2) := by
  unfold FAISSVectorStore.search at h₁ ⊢
  by_cases h0 : st.ntotal = 0
  · rw [if_pos h0] at h₁ ⊢
    have h' : ([] : List (DocumentChunk × ℚ)) = res₁ := Except.ok.inj h₁
    subst h'
    simp
  · rw [if_neg h0] at h₁ ⊢
    obtain ⟨m1, m2⟩ := searchFilter_mono st.documents t₁ t₂ h12
      (faissOut (min k (st.ntotal : Int))) res₁ h₁
    refine ⟨m1, List.length_filter_le _ _, m2, ?_⟩
    intro r hr
    have := (List.mem_filter.mp hr).2
    exact of_decide_eq_true this

/-- Witness for C7: on a concrete two-chunk store with raw scores `2` and
`0`, raising the threshold from `0` to `1` drops the second result. -/
theorem search_threshold_monotone_witness :
    FAISSVectorStore.search ⟨2, [⟨"a", "s1", none⟩, ⟨"b", "s2", none⟩]⟩
        (fun _ => [(2, 0), (0, 1)]) 5 1 =
      .ok [(⟨"a", "s1", none⟩, 2)] := by
  have h := search_threshold_monotone ⟨2, [⟨"a", "s1", none⟩, ⟨"b", "s2", none⟩]⟩
    (fun _ => [(2, 0), (0, 1)]) 5 0 1 (by norm_num)
    [(⟨"a", "s1", none⟩, 2), (⟨"b", "s2", none⟩, 0)] rfl
  exact h.1.trans (by rfl)

/-! ## Claim C10 -/

/-- **C10.** Because defaults are resolved with a truthiness test, calling
`retrieve_relevant_context` with an explicit `max_chunks = 0` or
`threshold = 0.0` gives exactly the result of omitting that argument: the
falsy value is replaced by the configured default (`5`, `0.7`), so a caller
cannot actually request a zero threshold or zero chunks. -/
theorem retrieve_relevant_context_falsy_defaults (st : VectorStoreState)
    (faissOut : Int → List (ℚ × Int)) (max_chunks : Option Int)
    (threshold : Option ℚ) :
    retrieve_relevant_context st faissOut (some 0) threshold =
      retrieve_relevant_context st faissOut none threshold ∧
    retrieve_relevant_context st faissOut max_chunks (some 0) =
      retrieve_relevant_context st faissOut max_chunks none := by
  constructor
  · unfold retrieve_relevant_context
    rw [show pyOrInt (some 0) 5 = pyOrInt none 5 from rfl]
  · unfold retrieve_relevant_context
    rw [show pyOrRat (some 0) (7 / 10) = pyOrRat none (7 / 10) from rfl]

/-! ## Claim C1 -/

/-- **C1.** When retrieval succeeds (the only exceptions it can raise being
the fatal infrastructure kind), `resolve_ticket` returns a well-formed
`TicketResponse` — exactly `generate_response` applied to the formatted
context and to the distinct source identifiers of the retrieved chunks in
first-seen order — and generation failures degrade to an
apology-and-escalate fallback rather than an error: whatever the service
does, the answer returned either is the service's validated response or
carries the safe `escalate_to_technical_team` action. -/
theorem resolve_ticket_wellformed (st : VectorStoreState)
    (faissOut : Int → List (ℚ × Int))
    (service : Nat → AttemptOutcome (Option Json)) (ticket_text : String)
    (results : List (DocumentChunk × ℚ))
    (h : retrieve_relevant_context st faissOut none none = .ok results) :
    resolve_ticket st faissOut service ticket_text =
      .ok (generate_response ticket_text (formatContext results)
        (firstSeenDedup (results.map (·.1.source))) service) ∧
    ∀ resp, resolve_ticket st faissOut service ticket_text = .ok resp →
      (∃ j, (callOpenaiWithBackoff service).result = .ok (some j) ∧
        ticketResponseOfJson j = some resp) ∨
      resp.action_required = "escalate_to_technical_team" := by
  have hmain : resolve_ticket st faissOut service ticket_text =
      .ok (generate_response ticket_text (formatContext results)
        (firstSeenDedup (results.map (·.1.source))) service) := by
    unfold resolve_ticket get_context_string get_references
    rw [h]
    rfl
  refine ⟨hmain, ?_⟩
  intro resp hresp
  rw [hmain] at hresp
  have hr : generate_response ticket_text (formatContext results)
      (firstSeenDedup (results.map (·.1.source))) service = resp :=
    Except.ok.inj hresp
  rcases generate_response_cases ticket_text (formatContext results)
      (firstSeenDedup (results.map (·.1.source))) service with
    ⟨j, tr, hj, htr, heq⟩ | hesc
  · exact Or.inl ⟨j, hj, by rw [htr, ← heq, hr]⟩
  · exact Or.inr (hr ▸ hesc)

/-- Witness for C1: a one-chunk store whose single retrieved chunk has source
`"faq.md: Intro"`, with a service that always rate-limits, resolves to the
rate-limit fallback carrying that single reference. -/
theorem resolve_ticket_wellformed_witness :
    resolve_ticket ⟨1, [⟨"hello", "faq.md: Intro", none⟩]⟩
        (fun _ => [(1, 0)]) (fun _ => .rateLimit) "why?" =
      .ok (fallbackRateLimit ["faq.md: Intro"]) := by
  have hret : retrieve_relevant_context ⟨1, [⟨"hello", "faq.md: Intro", none⟩]⟩
      (fun _ => [(1, 0)]) none none =
      .ok [(⟨"hello", "faq.md: Intro", none⟩, 1)] := by
    unfold retrieve_relevant_context FAISSVectorStore.search searchFilter
    simp only [pyOrInt, pyOrRat, if_neg (by norm_num : ¬(1 : Nat) = 0)]
    have hth : (7 : ℚ) / 10 ≤ 1 ∧ (0 : Int) <
        (([(⟨"hello", "faq.md: Intro", none⟩ : DocumentChunk)]).length : Int) :=
      ⟨by norm_num, by norm_num⟩
    rw [if_pos hth]
    rfl
  have h := (resolve_ticket_wellformed ⟨1, [⟨"hello", "faq.md: Intro", none⟩]⟩
    (fun _ => [(1, 0)]) (fun _ => .rateLimit) "why?"
    [(⟨"hello", "faq.md: Intro", none⟩, 1)] hret).1
  exact h.trans (by rfl)

/-! ## Claim C9 -/

/-- The accumulator invariant of the `_split_by_headings` loop: running the
loop over any line list with heading `h` and accumulated section `sec` yields
the `(h, sec ++ lines-up-to-the-next-heading)` section followed by the
spec-side split of the remaining lines, with whitespace-only sections
filtered out. -/
theorem splitGo_eq (lines : List (List Char)) :
    ∀ heading sec,
      splitGo lines heading sec =
        ((heading, sec ++ sectionContent
            (lines.takeWhile (fun l => (headingMatch l).isNone)))
          :: specSplitAux (lines.dropWhile (fun l => (headingMatch l).isNone))).filter
          (fun s => !(pyStripL s.2).isEmpty) := by
  induction lines with
  | nil =>
    intro heading sec
    simp only [splitGo, List.takeWhile_nil, List.dropWhile_nil, specSplitAux,
      sectionContent, List.map_nil, List.flatten_nil, List.append_nil,
      List.filter_cons, List.filter_nil]
    by_cases hs : (pyStripL sec).isEmpty
    · simp [hs]
    · simp [hs]
  | cons line rest ih =>
    intro heading sec
    rcases hm : headingMatch line with _ | title
    · have hp : ((headingMatch line).isNone : Bool) = true := by simp [hm]
      rw [List.takeWhile_cons_of_pos (p := fun l => (headingMatch l).isNone) hp,
        List.dropWhile_cons_of_pos (p := fun l => (headingMatch l).isNone) hp]
      simp only [splitGo, hm]
      rw [ih heading (sec ++ line ++ ['\n'])]
      simp [sectionContent, List.append_assoc]
    · have hp : ¬(((headingMatch line).isNone : Bool) = true) := by simp [hm]
      rw [List.takeWhile_cons_of_neg (p := fun l => (headingMatch l).isNone) hp,
        List.dropWhile_cons_of_neg (p := fun l => (headingMatch l).isNone) hp]
      have haux : specSplitAux (line :: rest) =
          (title, sectionContent
            (rest.takeWhile (fun l => (headingMatch l).isNone)))
          :: specSplitAux (rest.dropWhile (fun l => (headingMatch l).isNone)) := by
        rw [specSplitAux]
        simp [hm]
      rw [haux]
      simp only [splitGo, hm]
      rw [ih title []]
      simp only [List.nil_append, sectionContent, List.map_nil,
        List.flatten_nil, List.append_nil, List.filter_cons]
      by_cases hs : (pyStripL sec).isEmpty
      · simp [hs]
      · simp [hs]

/-- **C9.** `_split_by_headings` produces exactly what the spec describes:
the first unheaded block titled `"Introduction"`, then one section per
heading line (1–6 `#` markers, whitespace, text) titled with that heading's
text, containing exactly the lines between it and the next heading (each
suffixed by its newline); sections whose content is only whitespace are
discarded. Consequently every chunk `_process_file` builds from the split
has non-empty (stripped) content. -/
theorem splitByHeadings_correct (fileName : String) (content : List Char) :
    splitByHeadings content = specSplit content ∧
    ∀ chunk ∈ processFileChunks fileName content, chunk.content ≠ "" := by
  constructor
  · unfold splitByHeadings specSplit
    rw [splitGo_eq]
    simp
  · intro chunk hc
    unfold processFileChunks at hc
    obtain ⟨sec, hmem, hsec⟩ := List.mem_filterMap.mp hc
    by_cases hs : (pyStripL sec.2).isEmpty
    · simp [hs] at hsec
    · simp only [hs, if_false, Bool.false_eq_true, Option.some.injEq] at hsec
      intro habs
      apply hs
      have hdata : chunk.content.data = pyStripL sec.2 := by
        rw [← hsec]
      rw [habs] at hdata
      have : pyStripL sec.2 = [] := hdata.symm
      simp [this]

/-! ## Claim C8 -/

/-- On `ex8Text` with `max_length = 10`, `overlap = 5`, the loop state is a
fixed point: each iteration finds the sentence boundary at index 4, cuts at
`end = 5`, appends `"aaaa."`, and resets `start = 5 - 5 = 0`. So the loop
consumes any amount of fuel without finishing. -/
theorem chunkLoop_ex8_cycle :
    ∀ (fuel : Nat) (chunks : List (List Char)),
      chunkLoop ex8Text 10 5 fuel 0 chunks = .outOfFuel
  | 0, _ => rfl
  | fuel + 1, chunks => by
    show chunkLoop ex8Text 10 5 fuel 0
      (chunks ++ [['a', 'a', 'a', 'a', '.']]) = .outOfFuel
    exact chunkLoop_ex8_cycle fuel (chunks ++ [['a', 'a', 'a', 'a', '.']])

/-- **C8, counterexample.** `chunk_text` does *not* terminate for every
`max_length > 0`, `0 ≤ overlap < max_length`: on the 20-character text
`"aaaa.aaaaaaaaaaaaaaa"` with `max_length = 10` and `overlap = 5` (both in
the claimed range), the loop revisits `start = 0` forever — for every fuel
bound the run is still unfinished. -/
theorem chunk_text_nonterminating :
    (0 : Int) < 10 ∧ (0 : Int) ≤ 5 ∧ (5 : Int) < 10 ∧
    ¬ ∃ fuel, chunk_text ex8Text 10 5 fuel ≠ .outOfFuel := by
  refine ⟨by norm_num, by norm_num, by norm_num, ?_⟩
  rintro ⟨fuel, hfuel⟩
  apply hfuel
  unfold chunk_text
  rw [if_neg (by decide : ¬((ex8Text.length : Int) ≤ 10))]
  exact chunkLoop_ex8_cycle fuel []

/-- Python indexing succeeds on every in-range nonnegative index. -/
theorem pyGetElem_of_lt {α : Type} (l : List α) (i : Int) (h0 : 0 ≤ i)
    (h1 : i < (l.length : Int)) : ∃ c, pyGetElem l i = some c := by
  unfold pyGetElem
  rw [if_pos h0]
  have hlt : i.toNat < l.length := by omega
  exact ⟨l.get ⟨i.toNat, hlt⟩, by rw [List.get?_eq_get hlt]⟩

/-- The backward boundary scan never raises when every scanned index is in
range, and a found cut point lies in `(lowerBound + 1, i + 1]`, i.e. at least
`i - steps + 2`. -/
theorem scanBack_bounds (text : List Char) :
    ∀ (steps : Nat) (i : Int), 0 ≤ i - steps + 1 → i < (text.length : Int) →
      ∃ r, scanBack text steps i = .ok r ∧
        ∀ e, r = some e → i - steps + 2 ≤ e ∧ e ≤ i + 1 := by
  intro steps
  induction steps with
  | zero =>
    intro i h0 h1
    refine ⟨none, rfl, ?_⟩
    intro e he
    cases he
  | succ m ihm =>
    intro i h0 h1
    have hi0 : 0 ≤ i := by omega
    obtain ⟨c, hc⟩ := pyGetElem_of_lt text i hi0 h1
    by_cases hs : isSentenceEnd c
    · refine ⟨some (i + 1), by simp [scanBack, hc, hs], ?_⟩
      intro e he
      have : e = i + 1 := (Option.some.inj he).symm
      omega
    · obtain ⟨r, hr, hb⟩ := ihm (i - 1) (by omega) (by omega)
      refine ⟨r, by simp [scanBack, hc, hs, hr], ?_⟩
      intro e he
      have := hb e he
      omega

/-- The cut-point computation never raises when `0 < max_length` and
`0 ≤ start`, and the cut point is at least
`start + min max_length (max (max_length - 100) 0 + 2)`. -/
theorem computeEnd_bounds (text : List Char) (max_length start : Int)
    (hml : 0 < max_length) (h0 : 0 ≤ start) :
    ∃ e, computeEnd text max_length start = .ok e ∧
      start + min max_length (max (max_length - 100) 0 + 2) ≤ e := by
  unfold computeEnd
  by_cases hend : start + max_length < (text.length : Int)
  · rw [if_pos hend]
    have hlb : max (start + max_length - 100) start =
        start + max (max_length - 100) 0 := by omega
    obtain ⟨r, hr, hb⟩ := scanBack_bounds text
      ((start + max_length - max (start + max_length - 100) start).toNat)
      (start + max_length) (by omega) hend
    rcases r with _ | e0
    · refine ⟨start + max_length, ?_, by omega⟩
      rw [hr]
      rfl
    · have hbe := hb e0 rfl
      refine ⟨e0, ?_, by omega⟩
      rw [hr]
      rfl
  · rw [if_neg hend]
    exact ⟨start + max_length, rfl, by omega⟩

/-- With `overlap` at most `max (max_length - 100) 0 + 1` (and within the
claimed `0 ≤ overlap < max_length` range), every iteration advances `start`
by at least one, so fuel `n + 1` with `n ≥ len(text) - start` suffices for
the loop to finish normally. -/
theorem chunkLoop_terminates (text : List Char) (max_length overlap : Int)
    (hml : 0 < max_length) (hov1 : overlap < max_length)
    (hov2 : overlap ≤ max (max_length - 100) 0 + 1) :
    ∀ (n : Nat), ∀ (start : Int) (chunks : List (List Char)), 0 ≤ start →
      ((text.length : Int) - start).toNat ≤ n →
      ∃ res, chunkLoop text max_length overlap (n + 1) start chunks = .ok res := by
  intro n
  induction n with
  | zero =>
    intro start chunks h0 hle
    have hge : ¬(start < (text.length : Int)) := by omega
    exact ⟨chunks, by simp [chunkLoop, hge]⟩
  | succ m ihm =>
    intro start chunks h0 hle
    by_cases hlt : start < (text.length : Int)
    · obtain ⟨e, he, hbound⟩ := computeEnd_bounds text max_length start hml h0
      have hprog : start + 1 ≤ e - overlap := by omega
      simp only [chunkLoop, if_pos hlt, he]
      by_cases hstop : (text.length : Int) ≤ e - overlap
      · rw [if_pos hstop]
        exact ⟨_, rfl⟩
      · rw [if_neg hstop]
        exact ihm (e - overlap) _ (by omega) (by omega)
    · exact ⟨chunks, by simp [chunkLoop, hlt]⟩

/-- **C8, amended.** `chunk_text` terminates for every text whenever
`0 < max_length`, `0 ≤ overlap < max_length` *and additionally*
`overlap ≤ max (max_length - 100) 0 + 1` (so the overlap cannot reach back
past the shortest possible sentence-boundary cut; the shipped defaults
`max_length = 500`, `overlap = 50` satisfy this): some fuel bound makes the
run finish with a chunk list, rather than run out of fuel. -/
theorem chunk_text_terminates (text : List Char) (max_length overlap : Int)
    (hml : 0 < max_length) (hov0 : 0 ≤ overlap) (hov1 : overlap < max_length)
    (hov2 : overlap ≤ max (max_length - 100) 0 + 1) :
    ∃ fuel chunks, chunk_text text max_length overlap fuel = .ok chunks := by
  by_cases hlen : (text.length : Int) ≤ max_length
  · exact ⟨0, [text], by simp [chunk_text, hlen]⟩
  · obtain ⟨res, hres⟩ := chunkLoop_terminates text max_length overlap hml hov1 hov2
      text.length 0 [] le_rfl (by omega)
    exact ⟨text.length + 1, res, by simp [chunk_text, hlen, hres]⟩

/-- Witness for the amended C8: a 20-character text with `max_length = 10`
and `overlap = 1` terminates. -/
theorem chunk_text_terminates_witness :
    ∃ fuel chunks,
      chunk_text (List.replicate 20 'a') 10 1 fuel = .ok chunks :=
  chunk_text_terminates (List.replicate 20 'a') 10 1 (by decide) (by decide)
    (by decide) (by decide)

end Spec2Proof
